import Mathlib

/-!
Shallow embedding of the Flask service in src/app.py.

The service has two routes:
  GET /           (handler home)      returns a fixed greeting string.
  GET /employees  (handler employees) runs SELECT * FROM employees; against
                  the shared database connection, maps each returned row r to
                  the object with id r[0] and name r[1], and returns the list
                  JSON-encoded; any exception raised inside the try block
                  (acquiring the cursor, executing the query, fetching the
                  rows, or the list-comprehension mapping) is caught and
                  str(e) is returned as the body.  Flask gives both a plain
                  string return and a jsonify return HTTP status 200.

The external store is modelled by the rows its employees table holds
(`Store`) together with the behaviour of the connection on this call
(`DbBehavior`): the call may fail while acquiring the cursor (before the
query is sent), while executing the query, or while fetching the rows; on
`ok` the fetch returns the table rows.  A row is a tuple of run-time values
(`Value`), and the mapping step is embedded exactly as the comprehension
with positional indexing r[0], r[1]: a row with fewer than two entries
raises the IndexError whose message is "tuple index out of range".
-/

/-- A run-time value in a database row (Python is dynamically typed, so a
cell may hold an integer, a string, a boolean or NULL/None). -/
inductive Value where
  | int (n : Int)
  | str (s : String)
  | bool (b : Bool)
  | null
  deriving Repr, DecidableEq

/-- One row of the result set, as the ordered tuple the driver returns. -/
abbrev Row := List Value

/-- The record built by the comprehension: the dict with keys id and name. -/
structure Record where
  id : Value
  name : Value
  deriving Repr, DecidableEq

/-- The body of an HTTP response: a JSON-encoded array of records (the
jsonify branch) or a plain string (the home greeting and the except branch). -/
inductive Body where
  | json (records : List Record)
  | text (s : String)
  deriving Repr, DecidableEq

/-- An HTTP response: body and status code. -/
structure Response where
  body : Body
  status : Nat
  deriving Repr, DecidableEq

/-- The state of the external store: the rows of the employees table. -/
structure Store where
  rows : List Row
  deriving Repr, DecidableEq

/-- How the shared connection behaves on one call: it may raise while
acquiring the cursor (before any query is sent), while executing the query,
or while fetching the result set; otherwise the fetch returns the table rows. -/
inductive DbBehavior where
  | ok
  | cursorFail (msg : String)
  | execFail (msg : String)
  | fetchFail (msg : String)
  deriving Repr, DecidableEq

/-- The one SQL statement the service ever issues. -/
def selectEmployees : String := "SELECT * FROM employees;"

/-- The fixed greeting returned by the root handler. -/
def greeting : String := "<h2>Hello from Flask App on EC2 via ALB!</h2>"

/-- Embeds the dict construction of the comprehension body for a single row:
r[0] becomes id and r[1] becomes name; a row with fewer than two entries
raises IndexError ("tuple index out of range"), embedded as the error case. -/
def mapRow (r : Row) : Except String Record :=
  match r with
  | v0 :: v1 :: _ => Except.ok { id := v0, name := v1 }
  | _ => Except.error "tuple index out of range"

/-- Embeds the comprehension over the fetched rows: rows are mapped in
order and the first raising row aborts the comprehension with its error. -/
def mapRows (rs : List Row) : Except String (List Record) :=
  match rs with
  | [] => Except.ok []
  | r :: rest =>
    match mapRow r with
    | Except.error e => Except.error e
    | Except.ok rcd =>
      match mapRows rest with
      | Except.error e => Except.error e
      | Except.ok rcds => Except.ok (rcd :: rcds)

/-- The observable outcome of one call: the HTTP response, the store state
after the call, and the SQL statements the connection sent to the store. -/
structure CallResult where
  response : Response
  store : Store
  queries : List String
  deriving Repr, DecidableEq

/-- The response returned by the root handler (a plain string, status 200). -/
def home : Response := { body := Body.text greeting, status := 200 }

/-- The employees handler.  The try block in order: acquire a cursor,
execute the fixed SELECT, fetch all rows, map them with the comprehension,
jsonify.  An exception at any of these steps is caught by the except branch,
which returns str(e) as the body; a plain string return has status 200.  A
cursor-acquisition failure happens before the query is sent, so no query
reaches the store in that case; the SELECT never modifies the table. -/
def employees (b : DbBehavior) (s : Store) : CallResult :=
  match b with
  | DbBehavior.cursorFail m =>
      { response := { body := Body.text m, status := 200 }, store := s, queries := [] }
  | DbBehavior.execFail m =>
      { response := { body := Body.text m, status := 200 }, store := s,
        queries := [selectEmployees] }
  | DbBehavior.fetchFail m =>
      { response := { body := Body.text m, status := 200 }, store := s,
        queries := [selectEmployees] }
  | DbBehavior.ok =>
      match mapRows s.rows with
      | Except.ok rcds =>
          { response := { body := Body.json rcds, status := 200 }, store := s,
            queries := [selectEmployees] }
      | Except.error e =>
          { response := { body := Body.text e, status := 200 }, store := s,
            queries := [selectEmployees] }

/-- The two routes of the service. -/
inductive Route where
  | root
  | employeesRoute
  deriving Repr, DecidableEq

/-- The handler layer: exact-path dispatch to the two handlers.  The root
handler never touches the store and sends no query. -/
def handle (r : Route) (b : DbBehavior) (s : Store) : CallResult :=
  match r with
  | Route.root => { response := home, store := s, queries := [] }
  | Route.employeesRoute => employees b s

/-! ## Helper lemmas -/

/-- When every row has at least two entries the comprehension succeeds, the
output has one record per row, and position k of the output takes its id
from column 0 and its name from column 1 of row k. -/
theorem mapRows_ok_of_wide (rows : List Row) (h : ∀ r ∈ rows, 2 ≤ r.length) :
    ∃ rcds : List Record, mapRows rows = Except.ok rcds ∧
      rcds.length = rows.length ∧
      ∀ k r rcd, rows.get? k = some r → rcds.get? k = some rcd →
        r.get? 0 = some rcd.id ∧ r.get? 1 = some rcd.name := by
  induction rows with
  | nil =>
    refine ⟨[], rfl, rfl, ?_⟩
    intro k r rcd h1 _
    simp at h1
  | cons a as ih =>
    obtain ⟨v0, v1, rest, rfl⟩ : ∃ v0 v1 rest, a = v0 :: v1 :: rest := by
      match a, h a (by simp) with
      | v0 :: v1 :: rest, _ => exact ⟨v0, v1, rest, rfl⟩
    obtain ⟨rcds, hmap, hlen, hpt⟩ := ih (fun r hr => h r (List.mem_cons_of_mem _ hr))
    refine ⟨⟨v0, v1⟩ :: rcds, ?_, ?_, ?_⟩
    · simp [mapRows, mapRow, hmap]
    · simp [hlen]
    · intro k r rcd h1 h2
      match k with
      | 0 =>
        simp at h1 h2
        subst h1
        subst h2
        exact ⟨rfl, rfl⟩
      | k + 1 =>
        exact hpt k r rcd (by simpa using h1) (by simpa using h2)

/-- A row with fewer than two entries maps to the IndexError message. -/
theorem mapRow_error_of_short (r : Row) (h : r.length < 2) :
    mapRow r = Except.error "tuple index out of range" := by
  match r, h with
  | [], _ => rfl
  | [v], _ => rfl
  | v0 :: v1 :: rest, hh => simp at hh; omega

/-- If some row has fewer than two entries the comprehension raises the
IndexError: every failing row carries the same message, so whichever row
fails first, the result is that message. -/
theorem mapRows_error_of_short (rows : List Row) (h : ∃ r ∈ rows, r.length < 2) :
    mapRows rows = Except.error "tuple index out of range" := by
  induction rows with
  | nil => simp at h
  | cons a as ih =>
    by_cases ha : a.length < 2
    · simp [mapRows, mapRow_error_of_short a ha]
    · obtain ⟨r, hr, hrlen⟩ := h
      rcases List.mem_cons.mp hr with rfl | hr2
      · exact absurd hrlen ha
      · have herr := ih ⟨r, hr2, hrlen⟩
        have ha2 : 2 ≤ a.length := Nat.le_of_not_lt ha
        obtain ⟨v0, v1, rest, rfl⟩ : ∃ v0 v1 rest, a = v0 :: v1 :: rest := by
          match a, ha2 with
          | v0 :: v1 :: rest, _ => exact ⟨v0, v1, rest, rfl⟩
        simp [mapRows, mapRow, herr]

/-- The store state is returned unchanged on every path of the employees
handler: the one statement sent is a SELECT and nothing writes. -/
theorem employees_store_eq (b : DbBehavior) (s : Store) :
    (employees b s).store = s := by
  cases b with
  | ok => cases hm : mapRows s.rows <;> simp [employees, hm]
  | cursorFail m => rfl
  | execFail m => rfl
  | fetchFail m => rfl

/-- The handler layer never changes the store either. -/
theorem handle_store_eq (r : Route) (b : DbBehavior) (s : Store) :
    (handle r b s).store = s := by
  cases r with
  | root => rfl
  | employeesRoute => exact employees_store_eq b s

/-! ## Claim theorems -/

/-- C1: for every state of the employees table, a successful call to the
employees operation returns a JSON array with one element per row, in
store order, whose element k has its id field equal to column 0 and its
name field equal to column 1 of row k. -/
theorem employees_success_maps_rows (rows : List Row)
    (h : ∀ r ∈ rows, 2 ≤ r.length) :
    ∃ rcds : List Record,
      (employees DbBehavior.ok ⟨rows⟩).response =
        { body := Body.json rcds, status := 200 } ∧
      rcds.length = rows.length ∧
      ∀ k r rcd, rows.get? k = some r → rcds.get? k = some rcd →
        r.get? 0 = some rcd.id ∧ r.get? 1 = some rcd.name := by
  obtain ⟨rcds, hmap, hlen, hpt⟩ := mapRows_ok_of_wide rows h
  exact ⟨rcds, by simp [employees, hmap], hlen, hpt⟩

/-- C1 witness: on the table rows (1, "Alice"), (2, "Bob") the call
succeeds and the body is exactly the two-element JSON array of the claim. -/
theorem employees_success_maps_rows_spot :
    (∃ rcds : List Record,
      (employees DbBehavior.ok
          ⟨[[Value.int 1, Value.str "Alice"], [Value.int 2, Value.str "Bob"]]⟩).response =
        { body := Body.json rcds, status := 200 } ∧
      rcds.length =
        ([[Value.int 1, Value.str "Alice"], [Value.int 2, Value.str "Bob"]] : List Row).length ∧
      ∀ k r rcd,
        ([[Value.int 1, Value.str "Alice"], [Value.int 2, Value.str "Bob"]] : List Row).get? k
            = some r →
          rcds.get? k = some rcd →
          r.get? 0 = some rcd.id ∧ r.get? 1 = some rcd.name) ∧
    (employees DbBehavior.ok
        ⟨[[Value.int 1, Value.str "Alice"], [Value.int 2, Value.str "Bob"]]⟩).response =
      { body := Body.json [⟨Value.int 1, Value.str "Alice"⟩, ⟨Value.int 2, Value.str "Bob"⟩],
        status := 200 } :=
  ⟨employees_success_maps_rows
      [[Value.int 1, Value.str "Alice"], [Value.int 2, Value.str "Bob"]] (by decide),
    rfl⟩

/-- C2: an exception at any step of the try block (cursor acquisition,
query execution, fetch, or the mapping of the fetched rows) is caught and
its message is returned as the body with status 200; the handler is total
(no exception escapes) and the call sends at most one query, so nothing is
retried. -/
theorem employees_catches_failures (m : String) (s : Store) :
    (employees (DbBehavior.cursorFail m) s).response =
      { body := Body.text m, status := 200 } ∧
    (employees (DbBehavior.execFail m) s).response =
      { body := Body.text m, status := 200 } ∧
    (employees (DbBehavior.fetchFail m) s).response =
      { body := Body.text m, status := 200 } ∧
    (∀ e rows, mapRows rows = Except.error e →
      (employees DbBehavior.ok ⟨rows⟩).response =
        { body := Body.text e, status := 200 }) ∧
    (∀ b, (employees b s).queries.length ≤ 1) := by
  refine ⟨rfl, rfl, rfl, ?_, ?_⟩
  · intro e rows hmap
    simp [employees, hmap]
  · intro b
    cases b with
    | ok => cases hm : mapRows s.rows <;> simp [employees, hm]
    | cursorFail m2 => simp [employees]
    | execFail m2 => simp [employees]
    | fetchFail m2 => simp [employees]

/-- C3: on an empty table the call returns the empty JSON array, which is
neither a plain string (so not an error body) nor any non-empty array. -/
theorem employees_empty_table :
    (employees DbBehavior.ok ⟨[]⟩).response =
      { body := Body.json [], status := 200 } ∧
    (∀ m, Body.json ([] : List Record) ≠ Body.text m) ∧
    (∀ rcd rcds, Body.json ([] : List Record) ≠ Body.json (rcd :: rcds)) := by
  refine ⟨rfl, ?_, ?_⟩
  · intro m hcontra
    exact Body.noConfusion hcontra
  · intro rcd rcds hcontra
    cases hcontra

/-- C4: the mapping is positional: whatever values sit in positions 0 and 1
of a row, they become the id and name fields, and the columns beyond the
second never change the result. -/
theorem mapRow_positional (v0 v1 : Value) (extra extra2 : List Value) :
    mapRow (v0 :: v1 :: extra) = Except.ok { id := v0, name := v1 } ∧
    mapRow (v0 :: v1 :: extra) = mapRow (v0 :: v1 :: extra2) :=
  ⟨rfl, rfl⟩

/-- C5: when every row has at least two entries the mapping step cannot
fail; and when some row is shorter, the IndexError it raises is caught by
the same except branch and returned as a message body with status 200,
never propagated (the handler is total). -/
theorem mapRows_total_or_caught (rows : List Row) :
    ((∀ r ∈ rows, 2 ≤ r.length) → ∃ rcds, mapRows rows = Except.ok rcds) ∧
    ((∃ r ∈ rows, r.length < 2) →
      (employees DbBehavior.ok ⟨rows⟩).response =
        { body := Body.text "tuple index out of range", status := 200 }) := by
  constructor
  · intro h
    obtain ⟨rcds, hmap, -, -⟩ := mapRows_ok_of_wide rows h
    exact ⟨rcds, hmap⟩
  · intro h
    simp [employees, mapRows_error_of_short rows h]

/-- C6: the root handler returns the fixed greeting with status 200 for
every store state and connection behaviour, leaves the store unchanged and
sends no query. -/
theorem home_always_fixed (b : DbBehavior) (s : Store) :
    handle Route.root b s =
      { response := { body := Body.text greeting, status := 200 },
        store := s, queries := [] } ∧
    greeting = "<h2>Hello from Flask App on EC2 via ALB!</h2>" :=
  ⟨rfl, rfl⟩

/-- C7: when the store connection is unavailable (the cursor acquisition or
the query execution raises) the handler returns the message as a plain
string body, which is not a JSON array body, and no fault escapes. -/
theorem employees_unavailable_text (m : String) (s : Store) :
    (employees (DbBehavior.cursorFail m) s).response =
      { body := Body.text m, status := 200 } ∧
    (employees (DbBehavior.execFail m) s).response =
      { body := Body.text m, status := 200 } ∧
    (∀ rcds, Body.text m ≠ Body.json rcds) := by
  refine ⟨rfl, rfl, ?_⟩
  intro rcds hcontra
  exact Body.noConfusion hcontra

/-- C8: with no intervening write (the store after the first call is the
store it started with) a second identical call returns the same response
and the same store, on either route and any connection behaviour. -/
theorem handle_idempotent (r : Route) (b : DbBehavior) (s : Store) :
    handle r b (handle r b s).store = handle r b s := by
  rw [handle_store_eq r b s]

/-- C9 counterexample: when the exception is raised while acquiring the
cursor — a step the try block covers, before the query is sent — the call
issues no query at all, so "every call issues exactly one query" fails. -/
theorem employees_query_count_cex :
    (employees (DbBehavior.cursorFail "Connection refused") ⟨[]⟩).queries
      ≠ [selectEmployees] := by
  simp [employees]

/-- C9 (amended): the employees handler is read-only — the store is
unchanged on every path — and it issues at most one query, always the fixed
SELECT: exactly one on every path that reaches query execution, and none
when the exception occurs while acquiring the cursor, before the query is
sent. -/
theorem employees_read_only (b : DbBehavior) (s : Store) :
    (employees b s).store = s ∧
    (∀ q ∈ (employees b s).queries, q = selectEmployees) ∧
    ((∀ m, b ≠ DbBehavior.cursorFail m) →
      (employees b s).queries = [selectEmployees]) ∧
    (∀ m, b = DbBehavior.cursorFail m → (employees b s).queries = []) := by
  refine ⟨employees_store_eq b s, ?_, ?_, ?_⟩
  · intro q hq
    cases b with
    | ok =>
      cases hm : mapRows s.rows <;> simp [employees, hm] at hq <;> exact hq
    | cursorFail m => simp [employees] at hq
    | execFail m => simp [employees] at hq; exact hq
    | fetchFail m => simp [employees] at hq; exact hq
  · intro hnc
    cases b with
    | ok => cases hm : mapRows s.rows <;> simp [employees, hm]
    | cursorFail m => exact absurd rfl (hnc m)
    | execFail m => rfl
    | fetchFail m => rfl
  · intro m hb
    subst hb
    rfl

/-- C10: the mapping performs no type validation or coercion: whatever
run-time values sit in the first two positions — a string where the spec
types id as an integer, NULL, a boolean — they are passed through to the
id and name fields verbatim. -/
theorem mapRow_no_coercion :
    (∀ v0 v1 : Value, mapRow [v0, v1] = Except.ok { id := v0, name := v1 }) ∧
    mapRow [Value.str "7", Value.null] =
      Except.ok { id := Value.str "7", name := Value.null } ∧
    mapRow [Value.bool true, Value.int 3] =
      Except.ok { id := Value.bool true, name := Value.int 3 } :=
  ⟨fun _ _ => rfl, rfl, rfl⟩
